import Mathlib

/-!
Verification of the data-derivation and aggregation pipeline of the MIS491
Netflix dashboard (src/dashnetflix.py).  The pipeline pieces embedded here are
the multi-value field explosion and frequency counting (`extract_genres`,
`country_counts`), `Counter.most_common`, the duration extractor, the record
loader with its calendar-field derivation, the country-code resolver, the
per-country substring filter, and the composed derived-views computation.
Components of the system that the spec describes but that are absent from the
script in src/ (the Top-N-plus-Other bucketer, the resolver cache, the backing
territory table of the `pycountry` library) are modelled from the spec and
marked as such in their doc comments.
-/

set_option linter.unusedVariables false
set_option maxRecDepth 100000

namespace Dashnetflix

/-! ### Python string primitives used by the script -/

/-- Splitting a character list on the literal two-character separator ", ",
as Python's `str.split(', ')` does on the `listed_in` and `country` columns
(src/dashnetflix.py lines 24 and 100).  Non-overlapping, leftmost-first;
the empty string splits to the one-element list containing the empty string,
exactly as in Python. -/
def splitCS : List Char → List (List Char)
  | [] => [[]]
  | [c] => [[c]]
  | ',' :: ' ' :: rest => [] :: splitCS rest
  | c :: rest =>
    match splitCS rest with
    | [] => [[c]]
    | h :: t => (c :: h) :: t

/-- Python's `s.split(', ')` on a string. -/
def pySplit (s : String) : List String := (splitCS s.data).map String.mk

/-- Leading and trailing whitespace removal on a character list. -/
def trimChars (l : List Char) : List Char :=
  ((l.dropWhile Char.isWhitespace).reverse.dropWhile Char.isWhitespace).reverse

/-- Python's `str.strip()`, applied to each country token at
src/dashnetflix.py line 99. -/
def pyStrip (s : String) : String := String.mk (trimChars s.data)

/-! ### Frequency counting (`collections.Counter`) -/

/-- A frequency table: the association list held by a `collections.Counter`,
keys in first-seen order, each with its occurrence count. -/
abbrev FrequencyTable := List (String × Nat)

/-- Adding one occurrence of token `k` to the counter: increment the existing
entry, or append a fresh entry with count 1 (dict insertion order). -/
def counterAdd (t : FrequencyTable) (k : String) : FrequencyTable :=
  match t with
  | [] => [(k, 1)]
  | (k', c) :: rest => if k' = k then (k', c + 1) :: rest else (k', c) :: counterAdd rest k

/-- `collections.Counter(tokens)`: fold all tokens into the table. -/
def counter (tokens : List String) : FrequencyTable := tokens.foldl counterAdd []

/-- The comparison `Counter.most_common` sorts by: count of the first entry at
least the count of the second (descending counts). -/
def ge2 (a b : String × Nat) : Prop := b.2 ≤ a.2

instance : DecidableRel ge2 := fun a b => Nat.decLe b.2 a.2

instance : IsTotal (String × Nat) ge2 := ⟨fun a b => Nat.le_total b.2 a.2⟩

instance : IsTrans (String × Nat) ge2 := ⟨fun a b c h₁ h₂ => Nat.le_trans h₂ h₁⟩

/-- The full stable descending sort performed by `Counter.most_common()`:
Python's sort is stable, so entries with equal counts stay in first-seen
order. -/
def sortByCount (t : FrequencyTable) : FrequencyTable := List.insertionSort ge2 t

/-- `Counter.most_common(n)` as called at src/dashnetflix.py lines 67 and 79:
the stable descending sort truncated to its first `n` entries. -/
def most_common (t : FrequencyTable) (n : Nat) : FrequencyTable := (sortByCount t).take n

/-- Total of all counts in a table. -/
def sumCounts (t : FrequencyTable) : Nat := (t.map Prod.snd).sum

/-! ### Multi-value field explosion and counting -/

/-- The atomic tokens produced from a column: drop absent cells (`dropna`),
split each remaining cell on ", ", and flatten. -/
def rawTokens (series : List (Option String)) : List String :=
  (series.filterMap id).flatMap pySplit

/-- src/dashnetflix.py lines 23-25: `extract_genres` drops absent cells,
splits each on ", ", flattens, and counts.  The tokens are counted exactly as
split — they are not stripped of whitespace. -/
def extract_genres (series : List (Option String)) : FrequencyTable :=
  counter (rawTokens series)

/-- src/dashnetflix.py lines 98-102: `country_counts` is built the same way,
except that every token is passed through `str.strip()` before counting. -/
def country_counts (series : List (Option String)) : FrequencyTable :=
  counter ((rawTokens series).map pyStrip)

/-! ### Duration extraction -/

/-- Decimal value of a digit run. -/
def natOfDigits (l : List Char) : Nat := l.foldl (fun a c => a * 10 + (c.toNat - 48)) 0

/-- src/dashnetflix.py line 190:
`pd.to_numeric(movies_filtered['duration'].str.extract(r'(\d+)', expand=False), errors='coerce')`.
`str.extract` searches for the FIRST run of decimal digits anywhere in the
string (the pattern is unanchored); an absent cell, or a cell with no digit at
all, coerces to absent. -/
def extractMinutes (raw : Option String) : Option Nat :=
  match raw with
  | none => none
  | some s =>
    match (s.data.dropWhile (fun c => !c.isDigit)).takeWhile Char.isDigit with
    | [] => none
    | ds => some (natOfDigits ds)

/-! ### Date parsing and the record loader -/

/-- A parsed calendar date, as produced by `pd.to_datetime` (src line 15). -/
structure PDate where
  year : Int
  month : Int
  day : Int
deriving DecidableEq

/-- Month-name lookup for the `date_added` format of the catalog file. -/
def monthNum (s : String) : Option Nat :=
  ([("January", 1), ("February", 2), ("March", 3), ("April", 4), ("May", 5),
    ("June", 6), ("July", 7), ("August", 8), ("September", 9), ("October", 10),
    ("November", 11), ("December", 12)].find? (fun p => p.1 = s)).map Prod.snd

/-- A non-empty all-digit character run read as a number. -/
def parseNat (l : List Char) : Option Nat :=
  if l ≠ [] ∧ l.all Char.isDigit then some (natOfDigits l) else none

/-- Splitting a character list on single spaces. -/
def splitSpace : List Char → List (List Char)
  | [] => [[]]
  | ' ' :: rest => [] :: splitSpace rest
  | c :: rest =>
    match splitSpace rest with
    | [] => [[c]]
    | h :: t => (c :: h) :: t

/-- The date parser of src/dashnetflix.py line 15,
`pd.to_datetime(df['date_added'], errors='coerce')`, on the catalog's
date format "MonthName D, YYYY" (surrounding whitespace tolerated);
any string it cannot parse coerces to absent rather than raising. -/
def parseDateAdded (s : String) : Option PDate :=
  match splitCS (trimChars s.data) with
  | [md, y] =>
    match splitSpace md with
    | [mname, d] =>
      match monthNum (String.mk mname), parseNat d, parseNat y with
      | some m, some dd, some yy =>
        if 1 ≤ dd ∧ dd ≤ 31 then some ⟨(yy : Int), (m : Int), (dd : Int)⟩ else none
      | _, _, _ => none
    | _ => none
  | _ => none

/-- One raw row of the catalog file, with the columns the script uses.
Absent cells are `none`. -/
structure RawRow where
  type_ : String
  title : String
  country : Option String
  date_added : Option String
  release_year : Int
  rating : Option String
  duration : Option String
  listed_in : Option String
deriving DecidableEq

/-- A loaded record after the preprocessing of src lines 14-17: the raw
columns plus the derived `date_added`/`year_added`/`month_added` fields. -/
structure Rec where
  type_ : String
  title : String
  country : Option String
  release_year : Int
  rating : Option String
  duration : Option String
  listed_in : Option String
  dateAdded : Option PDate
  yearAdded : Option Int
  monthAdded : Option Int
deriving DecidableEq

/-- Loading one row (src lines 15-17): parse `date_added` with coercion of
failures to absent, then derive `year_added` and `month_added` from the
parsed date. -/
def loadRow (parse : String → Option PDate) (row : RawRow) : Rec :=
  let d := row.date_added.bind parse
  { type_ := row.type_, title := row.title, country := row.country,
    release_year := row.release_year, rating := row.rating,
    duration := row.duration, listed_in := row.listed_in,
    dateAdded := d, yearAdded := d.map PDate.year, monthAdded := d.map PDate.month }

/-- Loading the whole file (src lines 14-17): every row maps to exactly one
record, in order. -/
def load_df (parse : String → Option PDate) (rows : List RawRow) : List Rec :=
  rows.map (loadRow parse)

/-! ### Country code resolver -/

/-- One row of the Levenshtein dynamic program: extend the distance row
`prev` (with `diag` its former head and `left` the value just computed) by
consuming source character `c` against target characters `t`. -/
def levAux (c : Char) : List Char → List Nat → Nat → Nat → List Nat
  | [], _, _, _ => []
  | _ :: _, [], _, _ => []
  | tc :: ts, p :: ps, diag, left =>
    let cur := min (left + 1) (min (p + 1) (diag + (if c = tc then 0 else 1)))
    cur :: levAux c ts ps p cur

/-- Levenshtein edit distance between two character lists. -/
def levDist (s t : List Char) : Nat :=
  let init := List.range (t.length + 1)
  let final := s.foldl
    (fun row c =>
      match row with
      | [] => []
      | d :: rest => (d + 1) :: levAux c t rest d (d + 1))
    init
  final.getLastD 0

/-- One territory of the canonical name table: a canonical name and its
alpha-3 code. -/
structure Territory where
  name : String
  alpha_3 : String
deriving DecidableEq

/-- Modelled from the spec: the canonical territory name table backing the
resolver.  The real table is the data of the `pycountry` package, which is
not part of this repository; a small slice suffices for the resolver's
contract (spec section 4.5). -/
def territoryTable : List Territory :=
  [⟨"United States", "USA"⟩, ⟨"India", "IND"⟩, ⟨"France", "FRA"⟩,
   ⟨"Nigeria", "NGA"⟩, ⟨"Niger", "NER"⟩, ⟨"United Kingdom", "GBR"⟩]

/-- Modelled from the spec: `pycountry.countries.search_fuzzy` as the spec's
section 4.5 characterises it — exact-name lookup first; on a miss, the
best fuzzy matches (least edit distance, within a tolerance of 2) in fixed
table priority order; an empty result stands for the `LookupError` the
library raises when nothing matches even fuzzily. -/
def search_fuzzy (name : String) : List Territory :=
  match territoryTable.find? (fun t => t.name = name) with
  | some t => [t]
  | none =>
    let dists := territoryTable.map (fun t => (t, levDist name.data t.name.data))
    match (dists.map Prod.snd).min? with
    | none => []
    | some m =>
      if m ≤ 2 then (dists.filter (fun p => p.2 = m)).map Prod.fst else []

/-- src/dashnetflix.py lines 28-33: `get_alpha3_code` returns the alpha-3
code of the first fuzzy-search result, and catches the library's
`LookupError` (the empty result), returning `None` instead of raising. -/
def get_alpha3_code (name : String) : Option String :=
  match search_fuzzy name with
  | [] => none
  | t :: _ => some t.alpha_3

/-! ### Top-N bucketer -/

/-- Modelled from the spec: the Top-N Bucketer of spec section 4.4.  The
script in src/ truncates with a bare `most_common(10)` and never forms an
"Other" entry, so the bucketer is modelled from the spec's words: sort
descending (stable, first-seen ties), take the first `n`, sum the remainder
into a final entry labeled "Other", omitted when that sum is zero;
`n = 0` is the `InvalidArgument` failure, modelled as `none`. -/
def bucket (t : FrequencyTable) (n : Nat) : Option FrequencyTable :=
  if n = 0 then none
  else
    let sorted := sortByCount t
    let rest := sumCounts (sorted.drop n)
    some (if rest = 0 then sorted.take n else sorted.take n ++ [("Other", rest)])

/-! ### Resolver cache -/

/-- Modelled from the spec: the CountryCodeIndex (spec section 3) — the
process-wide cache of resolved codes.  The script in src/ calls the resolver
uncached; the cache is modelled from the spec's words.  A key absent from
the list is in the "unresolved" state; a key present is "resolved". -/
abbrev CountryCodeIndex := List (String × String)

/-- Cache lookup: the resolved code of `k`, if `k` is in the resolved state. -/
def cacheFind (cache : CountryCodeIndex) (k : String) : Option String :=
  (cache.find? (fun p => p.1 = k)).map Prod.snd

/-- Modelled from the spec: one cached resolution (spec sections 3 and 4.5):
return the cached code when the key is resolved; otherwise run the resolver
and, on success, transition the key to the resolved state. -/
def resolveCached (cache : CountryCodeIndex) (name : String) :
    Option String × CountryCodeIndex :=
  match cacheFind cache name with
  | some code => (some code, cache)
  | none =>
    match get_alpha3_code name with
    | some code => (some code, (name, code) :: cache)
    | none => (none, cache)

/-- A cache state is consistent when every resolved entry agrees with the
resolver; every cache populated by `resolveCached` from the empty cache, in
any order, is consistent. -/
def cacheConsistent (cache : CountryCodeIndex) : Prop :=
  ∀ k v, cacheFind cache k = some v → get_alpha3_code k = some v

/-- Resolving a list of names left to right, threading the cache. -/
def resolveAll (cache : CountryCodeIndex) :
    List String → List (Option String) × CountryCodeIndex
  | [] => ([], cache)
  | n :: ns =>
    let r := resolveCached cache n
    let rs := resolveAll r.2 ns
    (r.1 :: rs.1, rs.2)

/-! ### Substring containment (pandas `str.contains`) -/

/-- Boolean prefix test on character lists. -/
def isPrefixB : List Char → List Char → Bool
  | [], _ => true
  | _ :: _, [] => false
  | a :: as, b :: bs => a = b && isPrefixB as bs

/-- Boolean substring test: some suffix of `s` starts with `pat`. -/
def hasSubB (pat : List Char) : List Char → Bool
  | [] => isPrefixB pat []
  | c :: rest => isPrefixB pat (c :: rest) || hasSubB pat rest

/-- Pandas `series.str.contains(pat, na=False)` on one cell, for a pattern
free of regex metacharacters (a country name): absent cells are `False`,
present cells test substring containment (src line 130). -/
def cellContains (cell : Option String) (pat : String) : Bool :=
  match cell with
  | none => false
  | some s => hasSubB pat.data s.data

/-- src/dashnetflix.py line 130: the per-country view
`df_filtered[df_filtered['country'].str.contains(selected_country, na=False)]`. -/
def country_data (records : List Rec) (selected_country : String) : List Rec :=
  records.filter (fun r => cellContains r.country selected_country)

/-! ### The derived views of one render pass -/

/-- The sidebar filter state of src lines 38-51: the selected year, with
`none` standing for "All". -/
structure FilterConfig where
  year : Option Int
deriving DecidableEq

/-- The mean-duration ordering used for `sort_values(by='duration_minutes',
ascending=False)` at src line 196, on exact (sum, count) pairs: groups with
no numeric duration (the NaN means) sort last, and otherwise means compare
by cross-multiplication. -/
def meanGEb (a b : String × Nat × Nat) : Bool :=
  if a.2.2 = 0 then decide (b.2.2 = 0)
  else if b.2.2 = 0 then true
  else decide (b.2.1 * a.2.2 ≤ a.2.1 * b.2.2)

/-- The mean-duration ordering as a relation, for the stable sort. -/
def meanGE (a b : String × Nat × Nat) : Prop := meanGEb a b = true

instance : DecidableRel meanGE := fun a b => instDecidableEqBool (meanGEb a b) true

/-- First-seen deduplication of a token list (dict/group key order). -/
def dedup {α : Type} [DecidableEq α] : List α → List α
  | [] => []
  | x :: xs => x :: (dedup xs).filter (fun y => ¬ y = x)

/-- Ascending string order for pandas `groupby`'s sorted keys. -/
def strLE (a b : String) : Prop := ¬ b < a

instance : DecidableRel strLE := fun a b => inferInstanceAs (Decidable ¬ b < a)

/-- Ascending year order for `value_counts().sort_index()` (src line 182). -/
def yearLE (a b : Int × Nat) : Prop := a.1 ≤ b.1

instance : DecidableRel yearLE := fun a b => Int.decLe a.1 b.1

/-- The tables one render pass derives (src lines 53-256): the type
breakdown, the two top-10 genre tables, the per-year counts, the top
ratings, the country table with resolved alpha-3 codes (rows whose code
did not resolve dropped, as `dropna(subset=['alpha_3'])` does), and the
top-5 mean movie duration by genre group, the mean kept exact as a
(total, count) pair. -/
structure DerivedViews where
  typeCounts : List (String × Nat)
  movieGenres : List (String × Nat)
  tvGenres : List (String × Nat)
  yearCounts : List (Int × Nat)
  ratingCounts : List (String × Nat)
  countryTable : List (String × Nat × String)
  genreDuration : List (String × Nat × Nat)
deriving DecidableEq

/-- Counting occurrences of equal elements, for `value_counts()`-style
tables over non-string keys. -/
def countOcc (l : List Int) (y : Int) : Nat := (l.filter (fun z => z = y)).length

/-- The year filter of src lines 44-51: the whole frame when "All" is
selected, otherwise the rows whose `year_added` equals the selected year
(rows with an absent `year_added` compare unequal and drop out, as NaN
does in pandas). -/
def filterYear (records : List Rec) (cfg : FilterConfig) : List Rec :=
  match cfg.year with
  | none => records
  | some y => records.filter (fun r => r.yearAdded = some y)

/-- The list of country names fed to the resolver in one pass: the keys of
the country frequency table, in table order (src lines 104-105). -/
def countryNames (records : List Rec) (cfg : FilterConfig) : List String :=
  (country_counts ((filterYear records cfg).map Rec.country)).map Prod.fst

/-- One full derived-view computation (the body of src/dashnetflix.py from
line 44 on, stripped of rendering): filter by the selected year, then build
every table the charts consume.  The resolver cache is threaded through the
country-code resolution and returned updated. -/
def computeDerivedViews (records : List Rec) (cfg : FilterConfig)
    (cache : CountryCodeIndex) : DerivedViews × CountryCodeIndex :=
  let df_filtered := filterYear records cfg
  let movies_filtered := df_filtered.filter (fun r => r.type_ = "Movie")
  let tv_filtered := df_filtered.filter (fun r => r.type_ = "TV Show")
  let ccounts := country_counts (df_filtered.map Rec.country)
  let resolved := resolveAll cache (ccounts.map Prod.fst)
  let countryTable := (ccounts.zip resolved.1).filterMap
    (fun p => p.2.map (fun code => (p.1.1, p.1.2, code)))
  let durations := movies_filtered.map (fun r => (r.listed_in, extractMinutes r.duration))
  let keys := List.insertionSort strLE (dedup (movies_filtered.filterMap Rec.listed_in))
  let groups := keys.map (fun g =>
    let vals := (durations.filter (fun p => p.1 = some g)).filterMap Prod.snd
    (g, vals.sum, vals.length))
  ({ typeCounts := sortByCount (counter (df_filtered.map Rec.type_)),
     movieGenres := most_common (extract_genres (movies_filtered.map Rec.listed_in)) 10,
     tvGenres := most_common (extract_genres (tv_filtered.map Rec.listed_in)) 10,
     yearCounts :=
       let ys := df_filtered.filterMap Rec.yearAdded
       List.insertionSort yearLE ((dedup ys).map (fun y => (y, countOcc ys y))),
     ratingCounts := (sortByCount (counter (df_filtered.filterMap Rec.rating))).take 10,
     countryTable := countryTable,
     genreDuration := (List.insertionSort meanGE groups).take 5 },
   resolved.2)

/-! ### Concrete sample data used by the witnesses -/

/-- The concrete unparseable row of the spec's test: `date_added = "invalid"`. -/
def rowInvalid : RawRow :=
  ⟨"Movie", "X", none, some "invalid", 2020, some "PG", some "90 min", some "Dramas"⟩

/-- A concrete record for the pipeline witnesses. -/
def recUS : Rec :=
  ⟨"Movie", "T", some "United States", 2020, some "PG", some "90 min",
   some "Dramas", some ⟨2021, 9, 25⟩, some 2021, some 9⟩

/-- A concrete record whose only country is Nigeria. -/
def recNigeria : Rec :=
  ⟨"Movie", "N", some "Nigeria", 2019, some "PG", some "100 min",
   some "Dramas", some ⟨2021, 3, 2⟩, some 2021, some 3⟩

/-! ### Helper lemmas -/

theorem sumCounts_append (l₁ l₂ : FrequencyTable) :
    sumCounts (l₁ ++ l₂) = sumCounts l₁ + sumCounts l₂ := by
  simp [sumCounts]

theorem sumCounts_perm {l₁ l₂ : FrequencyTable} (h : l₁.Perm l₂) :
    sumCounts l₁ = sumCounts l₂ :=
  (h.map Prod.snd).sum_eq

theorem sortByCount_perm (t : FrequencyTable) : (sortByCount t).Perm t :=
  List.perm_insertionSort ge2 t

theorem sumCounts_sortByCount (t : FrequencyTable) :
    sumCounts (sortByCount t) = sumCounts t :=
  sumCounts_perm (sortByCount_perm t)

theorem sumCounts_take_drop (n : Nat) (l : FrequencyTable) :
    sumCounts (l.take n) + sumCounts (l.drop n) = sumCounts l := by
  rw [← sumCounts_append, List.take_append_drop]

theorem sorted_sortByCount (t : FrequencyTable) : List.Sorted ge2 (sortByCount t) :=
  List.sorted_insertionSort ge2 t

theorem length_sortByCount (t : FrequencyTable) : (sortByCount t).length = t.length :=
  (sortByCount_perm t).length_eq

theorem filter_orderedInsert (x : String × Nat) (l : List (String × Nat)) (c : Nat) :
    (List.orderedInsert ge2 x l).filter (fun p => p.2 = c) =
      if x.2 = c then x :: l.filter (fun p => p.2 = c)
      else l.filter (fun p => p.2 = c) := by
  induction l with
  | nil =>
    by_cases hx : x.2 = c <;> simp [List.orderedInsert, List.filter_cons, hx]
  | cons y ys ih =>
    simp only [List.orderedInsert]
    by_cases hr : ge2 x y
    · rw [if_pos hr]
      by_cases hx : x.2 = c <;> simp [List.filter_cons, hx]
    · rw [if_neg hr]
      by_cases hx : x.2 = c
      · have hy : ¬ (y.2 = c) := by
          unfold ge2 at hr
          omega
        simp [List.filter_cons, hy, ih, hx]
      · by_cases hy : y.2 = c <;> simp [List.filter_cons, hy, ih, hx]

theorem filter_sortByCount (l : FrequencyTable) (c : Nat) :
    (sortByCount l).filter (fun p => p.2 = c) = l.filter (fun p => p.2 = c) := by
  induction l with
  | nil => rfl
  | cons x xs ih =>
    simp only [sortByCount, List.insertionSort] at ih ⊢
    rw [filter_orderedInsert, List.filter_cons]
    by_cases hx : x.2 = c <;> simp [hx, ih]

/-! ### Claim C1 -/

/-- C1: for every frequency table and every n > 0, bucketing succeeds, the
sum of the counts in `bucket(table, n)` equals the sum of the counts in the
source table, and when the remainder beyond the top n sums to zero the
output is exactly the top-n entries — no "Other" entry is appended. -/
theorem bucket_preserves_sum (t : FrequencyTable) (n : Nat) (hn : 0 < n) :
    ∃ b, bucket t n = some b ∧ sumCounts b = sumCounts t ∧
      (sumCounts ((sortByCount t).drop n) = 0 → b = (sortByCount t).take n) := by
  have hne : n ≠ 0 := Nat.pos_iff_ne_zero.mp hn
  have hsplit := sumCounts_take_drop n (sortByCount t)
  have hs := sumCounts_sortByCount t
  by_cases h0 : sumCounts ((sortByCount t).drop n) = 0
  · refine ⟨(sortByCount t).take n, ?_, ?_, fun _ => rfl⟩
    · simp [bucket, hne, h0]
    · omega
  · refine ⟨(sortByCount t).take n ++ [("Other", sumCounts ((sortByCount t).drop n))],
      ?_, ?_, fun hc => absurd hc h0⟩
    · simp [bucket, hne, h0]
    · rw [sumCounts_append]
      have hone : sumCounts [("Other", sumCounts ((sortByCount t).drop n))] =
          sumCounts ((sortByCount t).drop n) := by simp [sumCounts]
      omega

/-- Witness for C1 at a concrete table and n = 2. -/
theorem bucket_preserves_sum_witness :
    ∃ b, bucket [("Drama", 3), ("Comedy", 1), ("Action", 1)] 2 = some b ∧
      sumCounts b = sumCounts [("Drama", 3), ("Comedy", 1), ("Action", 1)] ∧
      (sumCounts ((sortByCount [("Drama", 3), ("Comedy", 1), ("Action", 1)]).drop 2) = 0 →
        b = (sortByCount [("Drama", 3), ("Comedy", 1), ("Action", 1)]).take 2) :=
  bucket_preserves_sum [("Drama", 3), ("Comedy", 1), ("Action", 1)] 2 (by decide)

/-! ### Claim C2 -/

/-- C2 counterexample: with table {a: 2, b: 1, c: 1, d: 1} and n = 1, the
bucketed output is [(a, 2), ("Other", 3)], whose counts 2, 3 are not in
descending order — the aggregated "Other" entry is appended last and can
exceed the top-n counts, so the output is not sorted by count descending as
the claim states. -/
theorem bucket_not_sorted_cex :
    bucket [("a", 2), ("b", 1), ("c", 1), ("d", 1)] 1 =
      some [("a", 2), ("Other", 3)] ∧
    ¬ List.Sorted ge2 [("a", 2), ("Other", 3)] := by decide

/-- C2 amended: the top-n prefix of `bucket(table, n)` is sorted by count
descending (the trailing "Other" entry, when present, is appended after it
and may break the order), and for every n at least the number of distinct
values the output has no "Other" entry and exactly preserves the table's
entries sorted descending, ties kept in first-seen order (entries of any
given count appear exactly as they do in the source table). -/
theorem bucket_sorted_top_amended (t : FrequencyTable) (n : Nat) (hn : 0 < n)
    (b : FrequencyTable) (hb : bucket t n = some b) :
    List.Sorted ge2 (b.take n) ∧
    (t.length ≤ n → b.Perm t ∧ List.Sorted ge2 b ∧
      ∀ c : Nat, b.filter (fun p => p.2 = c) = t.filter (fun p => p.2 = c)) := by
  have hne : n ≠ 0 := Nat.pos_iff_ne_zero.mp hn
  have hsorted := sorted_sortByCount t
  simp only [bucket, hne, if_false, Option.some.injEq] at hb
  constructor
  · by_cases h0 : sumCounts ((sortByCount t).drop n) = 0
    · rw [if_pos h0] at hb
      subst hb
      rw [List.take_take]
      exact hsorted.sublist (List.take_sublist _ _)
    · rw [if_neg h0] at hb
      subst hb
      have hlt : n < (sortByCount t).length := by
        by_contra hle
        push_neg at hle
        rw [List.drop_eq_nil_of_le hle] at h0
        exact h0 rfl
      have hlen : n ≤ ((sortByCount t).take n).length := by
        rw [List.length_take]
        omega
      rw [List.take_append_of_le_length hlen, List.take_take, Nat.min_self]
      exact hsorted.sublist (List.take_sublist _ _)
  · intro hfull
    have hlens : (sortByCount t).length ≤ n := by
      rw [length_sortByCount]
      exact hfull
    have hdrop : (sortByCount t).drop n = [] := List.drop_eq_nil_of_le hlens
    have h0 : sumCounts ((sortByCount t).drop n) = 0 := by
      rw [hdrop]
      rfl
    rw [if_pos h0, List.take_of_length_le hlens] at hb
    subst hb
    exact ⟨sortByCount_perm t, hsorted, fun c => filter_sortByCount t c⟩

/-- Witness for C2 (amended) at a concrete table already of length ≤ n. -/
theorem bucket_sorted_top_amended_witness :
    List.Sorted ge2 (([("x", 3), ("y", 1)] : FrequencyTable).take 2) ∧
    (([("x", 3), ("y", 1)] : FrequencyTable).length ≤ 2 →
      ([("x", 3), ("y", 1)] : FrequencyTable).Perm [("x", 3), ("y", 1)] ∧
      List.Sorted ge2 ([("x", 3), ("y", 1)] : FrequencyTable) ∧
      ∀ c : Nat,
        (([("x", 3), ("y", 1)] : FrequencyTable).filter (fun p => p.2 = c)) =
        (([("x", 3), ("y", 1)] : FrequencyTable).filter (fun p => p.2 = c))) :=
  bucket_sorted_top_amended [("x", 3), ("y", 1)] 2 (by decide)
    [("x", 3), ("y", 1)] (by decide)

/-! ### Claim C3 -/

/-- C3 counterexample: the claim says `extractMinutes("3 Seasons")` is
absent, but the code's regex `(\d+)` is unanchored, so it matches the first
digit run anywhere: "3 Seasons" yields 3 (and "Season 2", which has no
leading digit run at all, yields 2 rather than absent). -/
theorem extractMinutes_cex :
    extractMinutes (some "3 Seasons") = some 3 ∧
    extractMinutes (some "3 Seasons") ≠ none ∧
    extractMinutes (some "Season 2") = some 2 := by decide

theorem takeWhile_digits_eq_nil (l : List Char) :
    (l.dropWhile (fun c => !c.isDigit)).takeWhile Char.isDigit = [] ↔
      ∀ c ∈ l, ¬ c.isDigit = true := by
  induction l with
  | nil => simp [List.dropWhile]
  | cons c cs ih =>
    by_cases hc : c.isDigit
    · simp [List.dropWhile, List.takeWhile, hc]
    · simp only [List.dropWhile, hc]
      simp only [Bool.not_false, List.mem_cons]
      constructor
      · intro h c' hc'
        rcases hc' with h' | h'
        · subst h'
          simp [hc]
        · exact (ih.mp h) c' h'
      · intro h
        exact ih.mpr (fun c' hc' => h c' (Or.inr hc'))

theorem extractMinutes_eq_none (s : String) :
    extractMinutes (some s) = none ↔
      (s.data.dropWhile (fun c => !c.isDigit)).takeWhile Char.isDigit = [] := by
  unfold extractMinutes
  cases h : (s.data.dropWhile (fun c => !c.isDigit)).takeWhile Char.isDigit <;> simp [h]

/-- C3 amended: `extractMinutes` extracts the FIRST run of decimal digits
anywhere in its input (the source regex is unanchored) and converts it to an
integer; absent input, or input containing no digit at all, yields absent
and never raises.  `extractMinutes(None)` is absent, `extractMinutes("90
min")` is 90, `extractMinutes("")` is absent, and `extractMinutes("3
Seasons")` is 3. -/
theorem extractMinutes_amended :
    extractMinutes none = none ∧
    (∀ s : String, extractMinutes (some s) = none ↔ ∀ c ∈ s.data, ¬ c.isDigit = true) ∧
    extractMinutes (some "90 min") = some 90 ∧
    extractMinutes (some "") = none ∧
    extractMinutes (some "3 Seasons") = some 3 :=
  ⟨rfl,
   fun s => (extractMinutes_eq_none s).trans (takeWhile_digits_eq_nil s.data),
   by decide, by decide, by decide⟩

/-- Witness for C3 (amended) at a concrete digit-free input. -/
theorem extractMinutes_amended_witness :
    extractMinutes (some "abc") = none :=
  (extractMinutes_amended.2.1 "abc").mpr (by decide)

/-! ### Claim C4 -/

/-- C4: for any date parser and any row list, loading keeps every row (the
output has one record per row, in order), `yearAdded`/`monthAdded` are
present iff `dateAdded` parsed, and a row whose `date_added` does not parse
is still in the output with `dateAdded`, `yearAdded`, `monthAdded` all
absent. -/
theorem load_keeps_rows (parse : String → Option PDate) (rows : List RawRow) :
    (load_df parse rows).length = rows.length ∧
    (∀ r ∈ load_df parse rows,
      (r.yearAdded.isSome ↔ r.dateAdded.isSome) ∧
      (r.monthAdded.isSome ↔ r.dateAdded.isSome)) ∧
    (∀ row ∈ rows, row.date_added.bind parse = none →
      loadRow parse row ∈ load_df parse rows ∧
      (loadRow parse row).dateAdded = none ∧
      (loadRow parse row).yearAdded = none ∧
      (loadRow parse row).monthAdded = none) := by
  refine ⟨by simp [load_df], ?_, ?_⟩
  · intro r hr
    simp only [load_df, List.mem_map] at hr
    obtain ⟨row, _, rfl⟩ := hr
    cases h : row.date_added.bind parse <;> simp [loadRow, h]
  · intro row hrow hparse
    exact ⟨List.mem_map_of_mem _ hrow, by simp [loadRow, hparse],
      by simp [loadRow, hparse], by simp [loadRow, hparse]⟩

/-- Witness for C4: loading the row with `date_added = "invalid"` under the
catalog's date parser keeps the row and leaves all three date fields absent. -/
theorem load_keeps_rows_witness :
    loadRow parseDateAdded rowInvalid ∈ load_df parseDateAdded [rowInvalid] ∧
    (loadRow parseDateAdded rowInvalid).dateAdded = none ∧
    (loadRow parseDateAdded rowInvalid).yearAdded = none ∧
    (loadRow parseDateAdded rowInvalid).monthAdded = none :=
  (load_keeps_rows parseDateAdded [rowInvalid]).2.2 rowInvalid (by simp) (by decide)

/-! ### Claim C5 -/

/-- C5 counterexample: `extract_genres` emits its atomic values exactly as
split, without stripping: on the cell "Drama , Comedy" it counts the value
"Drama " with its trailing space — an emitted atomic value that is not
whitespace-trimmed, contradicting "trimmed for every multi-value field". -/
theorem genre_not_trimmed_cex :
    ("Drama ", 1) ∈ extract_genres [some "Drama , Comedy"] ∧
    pyStrip "Drama " ≠ "Drama " := by decide

theorem keys_counterAdd (t : FrequencyTable) (tok k : String) :
    k ∈ (counterAdd t tok).map Prod.fst → k ∈ t.map Prod.fst ∨ k = tok := by
  induction t with
  | nil =>
    intro h
    simp [counterAdd] at h
    exact Or.inr h
  | cons p rest ih =>
    obtain ⟨k', c'⟩ := p
    by_cases hp : k' = tok
    · intro h
      subst hp
      simp only [counterAdd, if_pos rfl] at h
      left
      simpa using h
    · intro h
      simp only [counterAdd, if_neg hp] at h
      rcases (by simpa using h :
          k = k' ∨ k ∈ (counterAdd rest tok).map Prod.fst) with h' | h'
      · exact Or.inl (by simp [h'])
      · rcases ih h' with h'' | h''
        · exact Or.inl (List.mem_cons_of_mem _ h'')
        · exact Or.inr h''

theorem keys_counter_foldl (tokens : List String) :
    ∀ (acc : FrequencyTable) (k : String),
      k ∈ (tokens.foldl counterAdd acc).map Prod.fst →
      k ∈ acc.map Prod.fst ∨ k ∈ tokens := by
  induction tokens with
  | nil =>
    intro acc k h
    exact Or.inl h
  | cons t ts ih =>
    intro acc k h
    rcases ih (counterAdd acc t) k h with h' | h'
    · rcases keys_counterAdd acc t k h' with h'' | h''
      · exact Or.inl h''
      · exact Or.inr (by simp [h''])
    · exact Or.inr (List.mem_cons_of_mem _ h')

theorem keys_counter (tokens : List String) (k : String) :
    k ∈ (counter tokens).map Prod.fst → k ∈ tokens := by
  intro h
  rcases keys_counter_foldl tokens [] k h with h' | h'
  · simp at h'
  · exact h'

/-- C5 amended: whitespace is trimmed from each atomic COUNTRY value before
it is counted (every key of `country_counts` is the strip of some raw
token), but the GENRE values of `extract_genres` are emitted exactly as
split, untrimmed (every key is itself a raw token). -/
theorem trim_countries_only_amended :
    (∀ series k c, (k, c) ∈ country_counts series →
      ∃ tok ∈ rawTokens series, k = pyStrip tok) ∧
    (∀ series k c, (k, c) ∈ extract_genres series → k ∈ rawTokens series) := by
  constructor
  · intro series k c h
    have hk : k ∈ ((rawTokens series).map pyStrip) :=
      keys_counter _ k (List.mem_map_of_mem Prod.fst h)
    rcases List.mem_map.mp hk with ⟨tok, htok, heq⟩
    exact ⟨tok, htok, heq.symm⟩
  · intro series k c h
    exact keys_counter _ k (List.mem_map_of_mem Prod.fst h)

/-- Witness for C5 (amended): the country value "USA" counted from the cell
" USA , France" is the strip of one of its raw tokens. -/
theorem trim_countries_only_amended_witness :
    ∃ tok ∈ rawTokens [some " USA , France"], "USA" = pyStrip tok :=
  trim_countries_only_amended.1 [some " USA , France"] "USA" 1 (by decide)

/-! ### Claim C6 -/

/-- C6 counterexample: a record whose multi-value field is the EMPTY STRING
does not contribute zero pairs: Python's `"".split(", ")` is `[""]`, so the
record is counted once under the placeholder value "" by both explainers. -/
theorem empty_field_counted_cex :
    extract_genres [some ""] = [("", 1)] ∧
    extract_genres [some ""] ≠ [] ∧
    country_counts [some ""] = [("", 1)] := by decide

/-- C6 amended: a record whose multi-value field is ABSENT contributes zero
pairs to either explainer — it is dropped before splitting and leaves the
frequency counts unchanged, and is never an error — while a record whose
field is the empty string contributes exactly one pair whose atomic value is
the empty string. -/
theorem absent_field_zero_pairs_amended :
    (∀ rest, extract_genres (none :: rest) = extract_genres rest) ∧
    (∀ rest, country_counts (none :: rest) = country_counts rest) ∧
    extract_genres [some ""] = [("", 1)] ∧
    country_counts [some ""] = [("", 1)] := by
  refine ⟨fun rest => ?_, fun rest => ?_, by decide, by decide⟩ <;>
    simp [extract_genres, country_counts, rawTokens]

/-- Witness for C6 (amended): an absent cell ahead of a real one leaves the
genre counts untouched. -/
theorem absent_field_zero_pairs_amended_witness :
    extract_genres [none, some "Dramas"] = extract_genres [some "Dramas"] :=
  absent_field_zero_pairs_amended.1 [some "Dramas"]

/-! ### Claim C7 -/

/-- C7: `resolve` (the source's `get_alpha3_code`) yields absent — never
raising — whenever the territory search finds nothing, even fuzzily (the
caught `LookupError` path); and on the modelled territory table,
"United States" resolves exactly to "USA", the misspelled "Unitd States"
resolves to the same code via the fuzzy match, and "Narnia" yields absent. -/
theorem resolve_contract :
    (∀ name, search_fuzzy name = [] → get_alpha3_code name = none) ∧
    get_alpha3_code "United States" = some "USA" ∧
    get_alpha3_code "Unitd States" = some "USA" ∧
    get_alpha3_code "Narnia" = none := by
  refine ⟨fun name h => ?_, by decide, by decide, by decide⟩
  simp [get_alpha3_code, h]

/-- Witness for C7 at the concrete unmatched name "Atlantis". -/
theorem resolve_contract_witness :
    get_alpha3_code "Atlantis" = none :=
  resolve_contract.1 "Atlantis" (by decide)

/-! ### Claim C8 -/

theorem cacheFind_cons (a b k : String) (cache : CountryCodeIndex) :
    cacheFind ((a, b) :: cache) k = if a = k then some b else cacheFind cache k := by
  by_cases h : a = k <;> simp [cacheFind, List.find?_cons, h]

/-- C8: the resolver cache has exactly two states per key.  For an
unresolved key, one lookup returns exactly what the resolver returns and
transitions the key to resolved exactly on success (a failed lookup leaves
it unresolved).  For a resolved key, the cached code is returned unchanged,
and no later operation — on that key or any other — ever changes or removes
it: the key never transitions back and is never invalidated. -/
theorem cache_two_state (cache : CountryCodeIndex) (k q : String) :
    (cacheFind cache k = none →
      (resolveCached cache k).1 = get_alpha3_code k ∧
      (∀ c, get_alpha3_code k = some c → cacheFind (resolveCached cache k).2 k = some c) ∧
      (get_alpha3_code k = none → cacheFind (resolveCached cache k).2 k = none)) ∧
    (∀ c, cacheFind cache k = some c →
      (resolveCached cache k).1 = some c ∧
      cacheFind (resolveCached cache q).2 k = some c) := by
  constructor
  · intro hk
    cases hg : get_alpha3_code k with
    | none =>
      refine ⟨by simp [resolveCached, hk, hg], fun c hc => by simp [hg] at hc, fun _ => ?_⟩
      simp [resolveCached, hk, hg]
    | some code =>
      refine ⟨by simp [resolveCached, hk, hg], fun c hc => ?_, fun hc => by simp [hg] at hc⟩
      injection hc with hc
      subst hc
      simp [resolveCached, hk, hg, cacheFind_cons]
  · intro c hc
    refine ⟨by simp [resolveCached, hc], ?_⟩
    cases hq : cacheFind cache q with
    | some code => simp [resolveCached, hq, hc]
    | none =>
      cases hg : get_alpha3_code q with
      | none => simp [resolveCached, hq, hg, hc]
      | some code =>
        have hne : q ≠ k := by
          intro he
          rw [he, hc] at hq
          exact Option.noConfusion hq
        simp [resolveCached, hq, hg, cacheFind_cons, hne, hc]

/-- Witness for C8: a fresh key transitions to resolved on first successful
lookup, and a resolved key survives an operation on a different key. -/
theorem cache_two_state_witness :
    cacheFind (resolveCached [] "United States").2 "United States" = some "USA" ∧
    cacheFind (resolveCached [("France", "FRA")] "United States").2 "France" = some "FRA" :=
  ⟨((cache_two_state [] "United States" "United States").1 (by decide)).2.1 "USA" (by decide),
   ((cache_two_state [("France", "FRA")] "France" "United States").2 "FRA" (by decide)).2⟩

/-! ### Claim C9 -/

theorem resolveCached_consistent {cache : CountryCodeIndex}
    (hc : cacheConsistent cache) (name : String) :
    (resolveCached cache name).1 = get_alpha3_code name ∧
    cacheConsistent (resolveCached cache name).2 := by
  cases hf : cacheFind cache name with
  | some code =>
    refine ⟨?_, ?_⟩ <;> simp [resolveCached, hf]
    · exact (hc name code hf).symm
    · exact hc
  | none =>
    cases hg : get_alpha3_code name with
    | some code =>
      refine ⟨by simp [resolveCached, hf, hg], ?_⟩
      simp only [resolveCached, hf, hg]
      intro k v h
      rw [cacheFind_cons] at h
      by_cases he : name = k
      · subst he
        rw [if_pos rfl] at h
        injection h with h
        subst h
        exact hg
      · rw [if_neg he] at h
        exact hc k v h
    | none =>
      exact ⟨by simp [resolveCached, hf, hg], by simpa [resolveCached, hf, hg] using hc⟩

theorem resolveAll_consistent (names : List String) :
    ∀ cache : CountryCodeIndex, cacheConsistent cache →
      (resolveAll cache names).1 = names.map get_alpha3_code ∧
      cacheConsistent (resolveAll cache names).2 := by
  induction names with
  | nil =>
    intro cache hc
    exact ⟨rfl, hc⟩
  | cons n ns ih =>
    intro cache hc
    obtain ⟨h1, h2⟩ := resolveCached_consistent hc n
    obtain ⟨h3, h4⟩ := ih (resolveCached cache n).2 h2
    exact ⟨by simp [resolveAll, h1, h3], by simpa [resolveAll] using h4⟩

/-- C9: one derived-view computation is a pure function of the records and
the filter configuration: with any two consistent resolver-cache states —
in particular caches populated in any order by earlier resolutions — the
computed view tables are identical, and the cache stays consistent, so
re-running with identical inputs yields identical outputs regardless of
cache population order. -/
theorem computeDerivedViews_cache_independent (records : List Rec)
    (cfg : FilterConfig) (c₁ c₂ : CountryCodeIndex)
    (h₁ : cacheConsistent c₁) (h₂ : cacheConsistent c₂) :
    (computeDerivedViews records cfg c₁).1 = (computeDerivedViews records cfg c₂).1 ∧
    cacheConsistent (computeDerivedViews records cfg c₁).2 := by
  obtain ⟨e₁, k₁⟩ := resolveAll_consistent (countryNames records cfg) c₁ h₁
  obtain ⟨e₂, _⟩ := resolveAll_consistent (countryNames records cfg) c₂ h₂
  unfold countryNames at e₁ k₁ e₂
  constructor
  · simp only [computeDerivedViews]
    rw [e₁, e₂]
  · simpa only [computeDerivedViews] using k₁

/-- Witness for C9: the empty cache and a cache already holding the United
States resolution give identical derived views on a concrete record set. -/
theorem computeDerivedViews_cache_independent_witness :
    (computeDerivedViews [recUS] ⟨none⟩ []).1 =
      (computeDerivedViews [recUS] ⟨none⟩ [("United States", "USA")]).1 ∧
    cacheConsistent (computeDerivedViews [recUS] ⟨none⟩ []).2 :=
  computeDerivedViews_cache_independent [recUS] ⟨none⟩ [] [("United States", "USA")]
    (by intro k v h; simp [cacheFind] at h)
    (by
      intro k v h
      rw [cacheFind_cons] at h
      by_cases he : "United States" = k
      · subst he
        rw [if_pos rfl] at h
        injection h with h
        subst h
        decide
      · rw [if_neg he] at h
        simp [cacheFind] at h)

/-! ### Claim C10 -/

theorem isPrefixB_iff (pat l : List Char) :
    isPrefixB pat l = true ↔ ∃ post, pat ++ post = l := by
  induction pat generalizing l with
  | nil => simp [isPrefixB]
  | cons a as ih =>
    cases l with
    | nil => simp [isPrefixB]
    | cons b bs =>
      simp only [isPrefixB, Bool.and_eq_true, decide_eq_true_eq, ih]
      constructor
      · rintro ⟨rfl, post, rfl⟩
        exact ⟨post, rfl⟩
      · rintro ⟨post, h⟩
        injection h with h1 h2
        exact ⟨h1, post, h2⟩

theorem hasSubB_iff (pat s : List Char) :
    hasSubB pat s = true ↔ ∃ pre post, pre ++ pat ++ post = s := by
  induction s with
  | nil =>
    simp only [hasSubB, isPrefixB_iff]
    constructor
    · rintro ⟨post, h⟩
      exact ⟨[], post, by simpa using h⟩
    · rintro ⟨pre, post, h⟩
      rcases List.append_eq_nil.mp h with ⟨h1, h2⟩
      rcases List.append_eq_nil.mp h1 with ⟨h3, h4⟩
      exact ⟨post, by simp [h2, h4]⟩
  | cons c rest ih =>
    simp only [hasSubB, Bool.or_eq_true, isPrefixB_iff, ih]
    constructor
    · rintro (⟨post, h⟩ | ⟨pre, post, h⟩)
      · exact ⟨[], post, by simpa using h⟩
      · exact ⟨c :: pre, post, by simp [h]⟩
    · rintro ⟨pre, post, h⟩
      cases pre with
      | nil =>
        exact Or.inl ⟨post, by simpa using h⟩
      | cons c' pre' =>
        injection h with h1 h2
        exact Or.inr ⟨pre', post, h2⟩

/-- C10: the per-country view is exactly the substring filter — a record is
in `country_data(records, selected)` iff it is one of the records and its
raw country cell contains the selected name as a substring (absent cells
excluded); consequently a record whose only country is "Nigeria" lands in
the view selected for "Niger", and its genre is counted in the "Niger"
per-country movie-genre table. -/
theorem country_data_substring :
    (∀ (records : List Rec) (sel : String) (r : Rec),
      r ∈ country_data records sel ↔
        r ∈ records ∧ ∃ s, r.country = some s ∧
          ∃ pre post, pre ++ sel.data ++ post = s.data) ∧
    (recNigeria ∈ country_data [recNigeria] "Niger" ∧
      most_common (extract_genres
        (((country_data [recNigeria] "Niger").filter
          (fun r => r.type_ = "Movie")).map Rec.listed_in)) 10 = [("Dramas", 1)]) := by
  constructor
  · intro records sel r
    rw [country_data, List.mem_filter]
    constructor
    · rintro ⟨hr, hcell⟩
      refine ⟨hr, ?_⟩
      cases hc : r.country with
      | none =>
        rw [hc] at hcell
        simp [cellContains] at hcell
      | some s =>
        rw [hc] at hcell
        simp only [cellContains] at hcell
        exact ⟨s, rfl, (hasSubB_iff sel.data s.data).mp hcell⟩
    · rintro ⟨hr, s, hc, hsub⟩
      refine ⟨hr, ?_⟩
      rw [hc]
      simp only [cellContains]
      exact (hasSubB_iff sel.data s.data).mpr hsub
  · constructor <;> decide

/-- Witness for C10: the characterisation applied at the concrete
Nigeria-only record and the selection "Niger". -/
theorem country_data_substring_witness :
    recNigeria ∈ country_data [recNigeria] "Niger" ↔
      recNigeria ∈ [recNigeria] ∧ ∃ s, recNigeria.country = some s ∧
        ∃ pre post, pre ++ "Niger".data ++ post = s.data :=
  country_data_substring.1 [recNigeria] "Niger" recNigeria

end Dashnetflix
